import Mathlib

/-!
Shallow embedding of the `pb` package (a Go client for the Pandorabots
HTTP API) together with the fragments of the Go standard library that the
package calls into.  Every definition mirrors the corresponding Go
function; doc comments name the source symbol.
-/

set_option autoImplicit false

namespace PB

/-! ### Modelled Go standard-library fragments -/

/-- Models `path/filepath.Ext` (scanning the reversed character list):
the suffix beginning at the final dot in the final slash-separated
element of the path, empty if there is no dot.  On Linux the only path
separator is `/`. -/
def filepath_ExtAux : List Char → List Char → String
  | [], _ => ""
  | c :: rest, acc =>
    if c = '/' then ""
    else if c = '.' then String.mk ('.' :: acc)
    else filepath_ExtAux rest (c :: acc)

/-- Models `path/filepath.Ext` on a whole string. -/
def filepath_Ext (path : String) : String :=
  filepath_ExtAux path.data.reverse []

/-- Models the fragment of `net/http.StatusText` needed here: the textual
reason phrase for the common status codes, and `""` for codes outside the
modelled table (Go likewise returns `""` for unknown codes). -/
def http_StatusText (code : Nat) : String :=
  if code = 200 then "OK"
  else if code = 201 then "Created"
  else if code = 202 then "Accepted"
  else if code = 204 then "No Content"
  else if code = 301 then "Moved Permanently"
  else if code = 302 then "Found"
  else if code = 304 then "Not Modified"
  else if code = 400 then "Bad Request"
  else if code = 401 then "Unauthorized"
  else if code = 403 then "Forbidden"
  else if code = 404 then "Not Found"
  else if code = 405 then "Method Not Allowed"
  else if code = 409 then "Conflict"
  else if code = 500 then "Internal Server Error"
  else if code = 502 then "Bad Gateway"
  else if code = 503 then "Service Unavailable"
  else ""

/-- Models `strings.ContainsCtlByte`: whether the string contains an
ASCII control character (below `0x20`, or `0x7f`).  Bytes of multi-byte
UTF-8 characters are all at least `0x80`, so a character-level check is
equivalent. -/
def containsCtlChar (s : String) : Bool :=
  s.data.any fun c => c.toNat < 0x20 || c.toNat = 0x7f

/-- Character class test used by `net/url.getScheme`: ASCII letter. -/
def schemeAlpha (c : Char) : Bool :=
  ('a' ≤ c && c ≤ 'z') || ('A' ≤ c && c ≤ 'Z')

/-- Character class test used by `net/url.getScheme`: digit or one of
`+ - .`, legal in a scheme except as its first character. -/
def schemeDigitExt (c : Char) : Bool :=
  ('0' ≤ c && c ≤ '9') || c = '+' || c = '-' || c = '.'

/-- Models `net/url.getScheme`: splits `scheme:rest`.  The accumulator
holds the scheme characters read so far (it is empty exactly when we are
at index 0).  Returns `(scheme, rest)`; a string with no legal scheme
prefix yields `("", original)`; a leading `:` is the error
`missing protocol scheme`. -/
def getSchemeAux (orig : String) : List Char → List Char → Except String (String × String)
  | _, [] => .ok ("", orig)
  | acc, c :: rest =>
    if schemeAlpha c then getSchemeAux orig (acc ++ [c]) rest
    else if schemeDigitExt c then
      if acc.isEmpty then .ok ("", orig) else getSchemeAux orig (acc ++ [c]) rest
    else if c = ':' then
      if acc.isEmpty then .error "missing protocol scheme"
      else .ok (String.mk acc, String.mk rest)
    else .ok ("", orig)

/-- Models `strings.HasSuffix`: the suffix's characters are a suffix of
the string's characters (for ASCII suffixes this agrees with Go's
byte-level check). -/
def strings_HasSuffix (s suf : String) : Bool :=
  suf.data.isSuffixOf s.data

/-- Models the Go byte slice `s[0 : len(s)-1]` as used in `New`, where
the last character is the one-byte `/`: drop the last character. -/
def dropLastChar (s : String) : String :=
  String.mk s.data.dropLast

/-- Models `strings.ToLower` on the scheme (ASCII letters only appear
in schemes accepted by `getScheme`): lower-cases each character. -/
def strToLower (s : String) : String :=
  String.mk (s.data.map Char.toLower)

/-- The part of a parsed URL that the `pb` package inspects. -/
structure GoURL where
  scheme : String
  rest : String
deriving Repr, DecidableEq

/-- Models a fragment of `net/url.Parse`: rejection of control
characters (which Go applies only to the part before a `#` fragment
separator) and the `getScheme` split with scheme lower-casing.  The
finer error paths of the remainder are NOT modelled (invalid percent
escapes, host characters, ports): on such inputs this fragment returns
`.ok` where Go fails, and on control characters inside a fragment it
fails where Go succeeds.  It is exact at every concrete input where
this development instantiates it; statements that quantify over all URL
strings therefore take the parser as a collaborator parameter
(`applyOptionWith`, `pbNewWith`) instead of relying on this
fragment. -/
def url_Parse (rawurl : String) : Except String GoURL :=
  if containsCtlChar rawurl then .error "net/url: invalid control character in URL"
  else
    match getSchemeAux rawurl [] rawurl.data with
    | .error e => .error e
    | .ok (scheme, rest) => .ok { scheme := strToLower scheme, rest := rest }

/-! ### Data model of the `pb` package -/

/-- `DefaultURL` from the source. -/
def DefaultURL : String := "https://aiaas.pandorabots.com"

/-- The error values the embedded functions can return.  Go returns
`error` values built with `errors.New` / `fmt.Errorf`; each constructor
here corresponds to one construction site and carries the data that Go
formats into the message. -/
inductive PBError where
  /-- `ErrNoCred`: missing application ID or user key. -/
  | noCred
  /-- `SetUrl`: `url.Parse` failed; carries the parse error message. -/
  | parseError (msg : String)
  /-- `SetUrl`: parsed scheme is neither http nor https. -/
  | invalidSchema (rawurl : String)
  /-- `handleError`: status code outside `[200, 300)`, with reason phrase. -/
  | unexpectedStatus (code : Nat) (text : String)
  /-- `c.c.Do` (the transport) failed. -/
  | transportError (msg : String)
  /-- `json.Decoder.Decode` failed. -/
  | decodeError (msg : String)
  /-- `fileToUrl`: extension is not recognized. -/
  | extError (ext : String)
deriving Repr, DecidableEq

/-- The `Client` struct.  The two loggers are modelled by whether they
are set (`nil` or not) — the code only branches on that; `customHttp`
records whether a non-nil `http.Client` was installed. -/
structure Client where
  appId : String
  userKey : String
  url : String
  errorlog : Bool
  tracelog : Bool
  customHttp : Bool
deriving Repr, DecidableEq

/-- The zero client `New` starts from (`&Client{c: http.DefaultClient}`). -/
def initialClient : Client :=
  { appId := "", userKey := "", url := "", errorlog := false, tracelog := false,
    customHttp := false }

/-- The configuration options the package exports (`OptionFunc`
producers).  `setHttpClient true` stands for a non-nil `*http.Client`
argument. -/
inductive OptionF where
  | setCredentials (appId userKey : String)
  | setHttpClient (nonNil : Bool)
  | setUrl (rawurl : String)
  | setErrorLog (nonNil : Bool)
  | setTraceLog (nonNil : Bool)
deriving Repr, DecidableEq

/-- Applies one option to the client under construction, mirroring the
bodies of `SetCredentials`, `SetHttpClient`, `SetUrl`, `SetErrorLog`
and `SetTraceLog`. -/
def applyOption (c : Client) : OptionF → Except PBError Client
  | .setCredentials appId userKey => .ok { c with appId := appId, userKey := userKey }
  | .setHttpClient nonNil => .ok { c with customHttp := nonNil }
  | .setUrl rawurl =>
    let rawurl := if rawurl = "" then DefaultURL else rawurl
    match url_Parse rawurl with
    | .error e => .error (.parseError e)
    | .ok u =>
      if u.scheme ≠ "http" ∧ u.scheme ≠ "https" then .error (.invalidSchema rawurl)
      else .ok { c with url := rawurl }
  | .setErrorLog nonNil => .ok { c with errorlog := nonNil }
  | .setTraceLog nonNil => .ok { c with tracelog := nonNil }

/-- The option loop in `New`: apply each option in order, stopping at
the first failing option and returning its error. -/
def applyOptions (c : Client) : List OptionF → Except PBError Client
  | [] => .ok c
  | o :: os =>
    match applyOption c o with
    | .error e => .error e
    | .ok c => applyOptions c os

/-- `New`: run the options, then require non-empty credentials, default
the URL, and strip one trailing slash. -/
def pbNew (options : List OptionF) : Except PBError Client :=
  match applyOptions initialClient options with
  | .error e => .error e
  | .ok c =>
    if c.appId = "" ∨ c.userKey = "" then .error .noCred
    else
      let c := if c.url = "" then { c with url := DefaultURL } else c
      let c := if strings_HasSuffix c.url "/" then { c with url := dropLastChar c.url } else c
      .ok c

/-- `SetUrl`'s option application with the URL parser passed as an
explicit collaborator parameter: `net/url` is external to the package
(like the JSON decoder abstracted in `Dest.typed`), and `SetUrl` only
branches on whether the parser returns an error and on the returned
scheme.  Instantiating the parameter with `url_Parse` gives back
`applyOption` (lemma `applyOptionWith_url_Parse`); instantiating it
with the real `net/url.Parse` gives the real program. -/
def applyOptionWith (parse : String → Except String GoURL) (c : Client) :
    OptionF → Except PBError Client
  | .setCredentials appId userKey => .ok { c with appId := appId, userKey := userKey }
  | .setHttpClient nonNil => .ok { c with customHttp := nonNil }
  | .setUrl rawurl =>
    let rawurl := if rawurl = "" then DefaultURL else rawurl
    match parse rawurl with
    | .error e => .error (.parseError e)
    | .ok u =>
      if u.scheme ≠ "http" ∧ u.scheme ≠ "https" then .error (.invalidSchema rawurl)
      else .ok { c with url := rawurl }
  | .setErrorLog nonNil => .ok { c with errorlog := nonNil }
  | .setTraceLog nonNil => .ok { c with tracelog := nonNil }

/-- The option loop of `New` over the parameterized option
application. -/
def applyOptionsWith (parse : String → Except String GoURL) (c : Client) :
    List OptionF → Except PBError Client
  | [] => .ok c
  | o :: os =>
    match applyOptionWith parse c o with
    | .error e => .error e
    | .ok c => applyOptionsWith parse c os

/-- `New` over the parameterized option application; `pbNewWith
url_Parse` coincides with `pbNew` (lemma `pbNewWith_url_Parse`). -/
def pbNewWith (parse : String → Except String GoURL) (options : List OptionF) :
    Except PBError Client :=
  match applyOptionsWith parse initialClient options with
  | .error e => .error e
  | .ok c =>
    if c.appId = "" ∨ c.userKey = "" then .error .noCred
    else
      let c := if c.url = "" then { c with url := DefaultURL } else c
      let c := if strings_HasSuffix c.url "/" then { c with url := dropLastChar c.url } else c
      .ok c

/-! ### URL and parameter construction -/

/-- `Client.appUrl`: `{url}/{action}/{appId}`. -/
def appUrl (c : Client) (action : String) : String :=
  c.url ++ "/" ++ action ++ "/" ++ c.appId

/-- `Client.botUrl`: the application-scoped URL plus `/{botName}`. -/
def botUrl (c : Client) (action botName : String) : String :=
  appUrl c action ++ "/" ++ botName

/-- `Client.fileToUrl`: maps a personality file name to its resource
URL by extension.  Go's `switch` groups `.set`, `.map`, `.substitution`
into one case and `.properties`, `.pdefaults` into another; the bodies
are duplicated here per extension, which is equivalent. -/
def fileToUrl (c : Client) (name filename : String) : Except PBError String :=
  let rawurl := botUrl c "bot" name
  let ext := filepath_Ext filename
  if ext = ".aiml" then .ok (rawurl ++ "/file/" ++ filename)
  else if ext = ".set" then
    .ok (rawurl ++ "/" ++ ext.drop 1 ++ "/" ++ filename.dropRight ext.length)
  else if ext = ".map" then
    .ok (rawurl ++ "/" ++ ext.drop 1 ++ "/" ++ filename.dropRight ext.length)
  else if ext = ".substitution" then
    .ok (rawurl ++ "/" ++ ext.drop 1 ++ "/" ++ filename.dropRight ext.length)
  else if ext = ".properties" then .ok (rawurl ++ "/" ++ ext.drop 1)
  else if ext = ".pdefaults" then .ok (rawurl ++ "/" ++ ext.drop 1)
  else .error (.extError ext)

/-- One conditional insertion into the parameter map: `[(k, v)]` when the
guard holds, nothing otherwise. -/
def optParam (b : Bool) (k v : String) : List (String × String) :=
  if b then [(k, v)] else []

/-- The parameter map built by `TalkDebug` (Go builds a `map[string]string`;
the association list keeps the source order of the insertions, and all
keys are distinct literals).  `sessionid` is stringified with
`strconv.Itoa`, modelled by `toString` on `Int`. -/
def talkDebugParams (input clientName : String) (sessionId : Int) (recent : Bool)
    (that topic : String) (extra reset trace reload : Bool) : List (String × String) :=
  [("input", input)]
    ++ optParam (clientName != "") "client_name" clientName
    ++ optParam (sessionId != 0) "sessionid" (toString sessionId)
    ++ optParam recent "recent" "true"
    ++ optParam (that != "") "that" that
    ++ optParam (topic != "") "topic" topic
    ++ optParam extra "extra" "true"
    ++ optParam reset "reset" "true"
    ++ optParam trace "trace" "true"
    ++ optParam reload "reload" "true"

/-- The parameters `Talk` ends up passing: `TalkDebug` with empty context
overrides and all debug flags false. -/
def talkParams (input clientName : String) (sessionId : Int) (recent : Bool) :
    List (String × String) :=
  talkDebugParams input clientName sessionId recent "" "" false false false false

/-- The query string assembled at the top of `Client.do`:
`values.Set("user_key", c.userKey)` on a fresh `url.Values`, then
`values.Add(k, v)` for each operation parameter.  `url.Values` is a
multimap; membership in this list models membership in the encoded
query (Go's `Encode` sorts keys, which only permutes the pairs). -/
def doQuery (c : Client) (params : List (String × String)) : List (String × String) :=
  ("user_key", c.userKey) :: params

/-- The outgoing HTTP request `Client.do` constructs, before the
transport is invoked. -/
structure Request where
  method : String
  url : String
  query : List (String × String)
  hasBody : Bool
deriving Repr, DecidableEq

/-- The operations the package exports, with their arguments.  The
path-based convenience wrappers (`UploadFileFromPath` etc.) reach the
same URLs via `filepath.Base` and are not modelled separately. -/
inductive Operation where
  | list
  | createBot (name : String)
  | deleteBot (name : String)
  | listFiles (name : String)
  | downloadFiles (name : String)
  | uploadFile (name filename : String)
  | deleteFile (name filename : String)
  | getFile (name filename : String)
  | verify (name : String)
  | talk (name input clientName : String) (sessionId : Int) (recent : Bool)
  | talkDebug (name input clientName : String) (sessionId : Int) (recent : Bool)
      (that topic : String) (extra reset trace reload : Bool)
deriving Repr, DecidableEq

/-- The operation-specific parameter map each operation passes to
`Client.do` (`nil` maps become `[]`). -/
def opParams : Operation → List (String × String)
  | .downloadFiles _ => [("return", "zip")]
  | .talk _ input clientName sessionId recent => talkParams input clientName sessionId recent
  | .talkDebug _ input clientName sessionId recent that topic extra reset trace reload =>
    talkDebugParams input clientName sessionId recent that topic extra reset trace reload
  | _ => []

/-- The request each operation hands to `Client.do`: method, URL and
query per the corresponding Go function.  The file operations return the
`fileToUrl` error without constructing any request. -/
def opRequest (c : Client) : Operation → Except PBError Request
  | .list => .ok { method := "GET", url := appUrl c "bot", query := doQuery c [], hasBody := false }
  | .createBot name =>
    .ok { method := "PUT", url := botUrl c "bot" name, query := doQuery c [], hasBody := false }
  | .deleteBot name =>
    .ok { method := "DELETE", url := botUrl c "bot" name, query := doQuery c [], hasBody := false }
  | .listFiles name =>
    .ok { method := "GET", url := botUrl c "bot" name, query := doQuery c [], hasBody := false }
  | .downloadFiles name =>
    .ok { method := "GET", url := botUrl c "bot" name,
          query := doQuery c (opParams (.downloadFiles name)), hasBody := false }
  | .uploadFile name filename =>
    match fileToUrl c name filename with
    | .error e => .error e
    | .ok rawurl => .ok { method := "PUT", url := rawurl, query := doQuery c [], hasBody := true }
  | .deleteFile name filename =>
    match fileToUrl c name filename with
    | .error e => .error e
    | .ok rawurl =>
      .ok { method := "DELETE", url := rawurl, query := doQuery c [], hasBody := false }
  | .getFile name filename =>
    match fileToUrl c name filename with
    | .error e => .error e
    | .ok rawurl => .ok { method := "GET", url := rawurl, query := doQuery c [], hasBody := false }
  | .verify name =>
    .ok { method := "GET", url := botUrl c "bot" name ++ "/verify", query := doQuery c [],
          hasBody := false }
  | .talk name input clientName sessionId recent =>
    .ok { method := "POST", url := botUrl c "talk" name,
          query := doQuery c (talkParams input clientName sessionId recent), hasBody := false }
  | .talkDebug name input clientName sessionId recent that topic extra reset trace reload =>
    .ok { method := "POST", url := botUrl c "talk" name,
          query := doQuery c (talkDebugParams input clientName sessionId recent that topic
            extra reset trace reload), hasBody := false }

/-! ### Request execution (`Client.do`) -/

/-- The response handed back by the transport.  The Go HTTP client
guarantees a non-nil `Body` on every response it returns, so the body is
a plain string of bytes (the code's `if resp.Body != nil` guard is
therefore always taken). -/
structure HTTPResponse where
  statusCode : Nat
  body : String
deriving Repr, DecidableEq

/-- Outcome of `c.c.Do(req)`: a transport error, or a response. -/
inductive TransportResult where
  | err (msg : String)
  | ok (resp : HTTPResponse)
deriving Repr, DecidableEq

/-- What happened to the response body by the time `do` returns:
whether the underlying stream was read to EOF, and whether it was
closed. -/
structure BodyState where
  drained : Bool
  closed : Bool
deriving Repr, DecidableEq

/-- The `result interface{}` argument of `Client.do`, as the three cases
its type switch distinguishes: `nil`, an `io.Writer`, or anything else
(decoded from JSON; the `encoding/json` decoder is an abstract function
from the body to a value or an error message). -/
inductive Dest (α : Type) where
  | noResult
  | writer
  | typed (decode : String → Except String α)

/-- Everything observable about one run of `Client.do` from the point
the transport is invoked: the returned error, the value decoded into a
typed result, the bytes copied to a writer result, and the final body
state (`none` when the transport failed and no response body exists). -/
structure DoRun (α : Type) where
  err : Option PBError
  decoded : Option α
  written : Option String
  bodyState : Option BodyState

/-- `Client.handleError`: a status code outside `[200, 300)` becomes an
`unexpectedStatus` error carrying the code and `http.StatusText` reason
phrase; with an error logger configured, `httputil.DumpResponse` first
reads the body to EOF (replacing it with an in-memory copy). -/
def handleError (errlog : Bool) (resp : HTTPResponse) (bs : BodyState) :
    Option PBError × BodyState :=
  if resp.statusCode < 200 ∨ 300 ≤ resp.statusCode then
    (some (.unexpectedStatus resp.statusCode (http_StatusText resp.statusCode)),
     if errlog then { bs with drained := true } else bs)
  else (none, bs)

/-- The body of `Client.do` from `c.c.Do(req)` on: propagate transport
errors; otherwise defer closing the body, classify the status, mirror
the successful response to the trace log (`DumpResponse` reads the body
to EOF), and dispatch on the result destination.  `io.Copy` to a writer
reads the body to EOF; the JSON decoder reads only as much as it needs,
so it is not credited with draining the stream. -/
def go_do {α : Type} (c : Client) (dest : Dest α) (tr : TransportResult) : DoRun α :=
  match tr with
  | .err msg =>
    { err := some (.transportError msg), decoded := none, written := none, bodyState := none }
  | .ok resp =>
    let bs0 : BodyState := { drained := false, closed := false }
    match handleError c.errorlog resp bs0 with
    | (some e, bs1) =>
      { err := some e, decoded := none, written := none,
        bodyState := some { bs1 with closed := true } }
    | (none, bs1) =>
      let bs2 := if c.tracelog then { bs1 with drained := true } else bs1
      match dest with
      | .noResult =>
        { err := none, decoded := none, written := none,
          bodyState := some { bs2 with closed := true } }
      | .writer =>
        { err := none, decoded := none, written := some resp.body,
          bodyState := some { drained := true, closed := true } }
      | .typed decode =>
        match decode resp.body with
        | .error m =>
          { err := some (.decodeError m), decoded := none, written := none,
            bodyState := some { bs2 with closed := true } }
        | .ok a =>
          { err := none, decoded := some a, written := none,
            bodyState := some { bs2 with closed := true } }

/-! ### Talk -/

/-- The `Reply` struct. -/
structure Reply where
  sessionId : Int
  responses : List String
deriving Repr, DecidableEq

/-- `Client.TalkDebug`: builds the parameter map, POSTs to the
talk-scoped bot URL, decodes the body into a fresh zero-valued `Reply`,
and returns the address of that `Reply` (always non-nil) together with
the error from `do`.  The JSON decoder is abstract; on decode failure
the model keeps the zero value where Go may leave a partially decoded
struct (the pointer's non-nilness is unaffected). -/
def TalkDebug (c : Client) (name input clientName : String) (sessionId : Int)
    (recent : Bool) (that topic : String) (extra reset trace reload : Bool)
    (decodeReply : String → Except String Reply) (tr : TransportResult) :
    Request × Option Reply × Option PBError :=
  let params := talkDebugParams input clientName sessionId recent that topic
    extra reset trace reload
  let req : Request :=
    { method := "POST", url := botUrl c "talk" name, query := doQuery c params,
      hasBody := false }
  let run := go_do c (Dest.typed decodeReply) tr
  (req, some (run.decoded.getD { sessionId := 0, responses := [] }), run.err)

/-- `Client.Talk`: `TalkDebug` with empty context overrides and all
debug flags false. -/
def Talk (c : Client) (name input clientName : String) (sessionId : Int) (recent : Bool)
    (decodeReply : String → Except String Reply) (tr : TransportResult) :
    Request × Option Reply × Option PBError :=
  TalkDebug c name input clientName sessionId recent "" "" false false false false
    decodeReply tr

/-- A concrete client used by witnesses and counterexamples. -/
def client0 : Client :=
  { appId := "app", userKey := "key", url := DefaultURL, errorlog := false,
    tracelog := false, customHttp := false }

/-- A concrete JSON decoder for a numeric result, standing in for
`encoding/json` in witnesses. -/
def decode0 : String → Except String Nat :=
  fun s => if s = "7" then .ok 7 else .error "invalid character"

/-- A concrete JSON decoder for `Reply`, standing in for
`encoding/json` in witnesses: accepts exactly the documented example
body. -/
def decodeReply0 : String → Except String Reply :=
  fun s =>
    if s = "\x7b\"sessionid\": 7, \"responses\": [\"hi\"]\x7d" then
      .ok { sessionId := 7, responses := ["hi"] }
    else .error "invalid character"

/-! ### Helper lemmas -/

@[simp]
theorem mem_optParam {b : Bool} {k v k₀ v₀ : String} :
    (k, v) ∈ optParam b k₀ v₀ ↔ (b = true ∧ k = k₀ ∧ v = v₀) := by
  cases b <;> simp [optParam]

theorem talkDebugParams_key_mem {i cn : String} {sid : Int} {r : Bool} {th tp : String}
    {ex rs trc rl : Bool} {k v : String}
    (h : (k, v) ∈ talkDebugParams i cn sid r th tp ex rs trc rl) :
    k ∈ (["input", "client_name", "sessionid", "recent", "that", "topic", "extra",
      "reset", "trace", "reload"] : List String) := by
  simp only [talkDebugParams, List.mem_append, List.mem_singleton, Prod.mk.injEq,
    mem_optParam] at h
  simp only [List.mem_cons, List.not_mem_nil, or_false]
  tauto

theorem applyOption_ne_noCred (c : Client) (o : OptionF) :
    applyOption c o ≠ .error .noCred := by
  cases o with
  | setUrl rawurl =>
    simp only [applyOption]
    cases url_Parse (if rawurl = "" then DefaultURL else rawurl) with
    | error e => simp
    | ok u =>
      by_cases hs : u.scheme ≠ "http" ∧ u.scheme ≠ "https" <;> simp [hs]
  | _ => simp [applyOption]

theorem applyOptions_ne_noCred (options : List OptionF) (c : Client) :
    applyOptions c options ≠ .error .noCred := by
  induction options generalizing c with
  | nil => simp [applyOptions]
  | cons o os ih =>
    simp only [applyOptions]
    cases ho : applyOption c o with
    | error e =>
      intro h
      exact applyOption_ne_noCred c o (by rw [ho, show e = PBError.noCred from by
        injection h])
    | ok c₁ => exact ih c₁

theorem opRequest_query {c : Client} {op : Operation} {req : Request}
    (h : opRequest c op = .ok req) : req.query = doQuery c (opParams op) := by
  cases op <;> simp only [opRequest, opParams] at h ⊢ <;>
    first
      | (injection h with h; exact (congrArg Request.query h).symm)
      | (split at h <;> [cases h; skip] <;> injection h with h <;>
          exact (congrArg Request.query h).symm)

theorem applyOptionWith_url_Parse (c : Client) (o : OptionF) :
    applyOptionWith url_Parse c o = applyOption c o := by
  cases o <;> rfl

theorem applyOptionsWith_url_Parse (options : List OptionF) (c : Client) :
    applyOptionsWith url_Parse c options = applyOptions c options := by
  induction options generalizing c with
  | nil => rfl
  | cons o os ih =>
    simp only [applyOptionsWith, applyOptions, applyOptionWith_url_Parse]
    cases applyOption c o with
    | error e => rfl
    | ok c₁ => exact ih c₁

theorem pbNewWith_url_Parse (options : List OptionF) :
    pbNewWith url_Parse options = pbNew options := by
  simp only [pbNewWith, pbNew, applyOptionsWith_url_Parse]

/-! ### Claim theorems -/

/-- C4: the `TalkDebug` parameter map contains `input` always; contains
`client_name`, `that`, `topic` exactly when the corresponding string
argument is non-empty; contains `sessionid` (stringified) exactly when
the session id is non-zero; contains each of `recent`, `extra`,
`reset`, `trace`, `reload` with value `"true"` exactly when the
corresponding boolean is true (absent otherwise); and `Talk` is
`TalkDebug` with empty context overrides and all debug flags false. -/
theorem talkDebugParams_spec (i cn : String) (sid : Int) (r : Bool) (th tp : String)
    (ex rs trc rl : Bool) :
    (("input", i) ∈ talkDebugParams i cn sid r th tp ex rs trc rl) ∧
    (∀ v, ("client_name", v) ∈ talkDebugParams i cn sid r th tp ex rs trc rl ↔
      cn ≠ "" ∧ v = cn) ∧
    (∀ v, ("sessionid", v) ∈ talkDebugParams i cn sid r th tp ex rs trc rl ↔
      sid ≠ 0 ∧ v = toString sid) ∧
    (∀ v, ("recent", v) ∈ talkDebugParams i cn sid r th tp ex rs trc rl ↔
      r = true ∧ v = "true") ∧
    (∀ v, ("that", v) ∈ talkDebugParams i cn sid r th tp ex rs trc rl ↔
      th ≠ "" ∧ v = th) ∧
    (∀ v, ("topic", v) ∈ talkDebugParams i cn sid r th tp ex rs trc rl ↔
      tp ≠ "" ∧ v = tp) ∧
    (∀ v, ("extra", v) ∈ talkDebugParams i cn sid r th tp ex rs trc rl ↔
      ex = true ∧ v = "true") ∧
    (∀ v, ("reset", v) ∈ talkDebugParams i cn sid r th tp ex rs trc rl ↔
      rs = true ∧ v = "true") ∧
    (∀ v, ("trace", v) ∈ talkDebugParams i cn sid r th tp ex rs trc rl ↔
      trc = true ∧ v = "true") ∧
    (∀ v, ("reload", v) ∈ talkDebugParams i cn sid r th tp ex rs trc rl ↔
      rl = true ∧ v = "true") ∧
    (∀ (c : Client) (name : String) (d : String → Except String Reply)
      (tr : TransportResult),
      Talk c name i cn sid r d tr = TalkDebug c name i cn sid r "" "" false false false false d tr) := by
  refine ⟨?_, ?_, ?_, ?_, ?_, ?_, ?_, ?_, ?_, ?_, fun c name d tr => rfl⟩ <;>
    intros <;>
    simp [talkDebugParams, List.mem_append, Prod.mk.injEq, mem_optParam, and_comm]

/-- Witness for C4 at concrete arguments: `input` and the stringified
non-zero session id are present, and a true `recent` flag is present as
`"true"`. -/
theorem talkDebugParams_spec_witness :
    ("input", "hello") ∈ talkDebugParams "hello" "" 7 true "" "" false false false false ∧
    ("sessionid", "7") ∈ talkDebugParams "hello" "" 7 true "" "" false false false false ∧
    ("recent", "true") ∈ talkDebugParams "hello" "" 7 true "" "" false false false false := by
  obtain ⟨h1, -, h3, h4, -⟩ :=
    talkDebugParams_spec "hello" "" 7 true "" "" false false false false
  exact ⟨h1, (h3 "7").mpr ⟨by decide, rfl⟩, (h4 "true").mpr ⟨rfl, rfl⟩⟩

/-- C3: the query string of every issued request contains `user_key`
set to the configured user key together with all operation-specific
parameters, and no operation's parameter map uses the key
`user_key`. -/
theorem user_key_in_query (c : Client) (op : Operation) :
    ("user_key" ∉ (opParams op).map Prod.fst) ∧
    (∀ req, opRequest c op = .ok req →
      ("user_key", c.userKey) ∈ req.query ∧ ∀ p ∈ opParams op, p ∈ req.query) := by
  constructor
  · intro hmem
    simp only [List.mem_map] at hmem
    obtain ⟨⟨k, v⟩, hkv, hk⟩ := hmem
    cases op <;> simp only [opParams] at hkv
    case downloadFiles => simp at hkv; simp [hkv.1] at hk
    case talk =>
      have := talkDebugParams_key_mem hkv
      subst hk; simp at this
    case talkDebug =>
      have := talkDebugParams_key_mem hkv
      subst hk; simp at this
    all_goals simp at hkv
  · intro req hreq
    have hq : req.query = doQuery c (opParams op) := opRequest_query hreq
    rw [hq]
    exact ⟨List.mem_cons_self _ _, fun p hp => List.mem_cons_of_mem _ hp⟩

/-- Witness for C3 at the download operation: the issued request's
query holds both the credential pair and the operation parameter. -/
theorem user_key_in_query_witness :
    ("user_key" ∉ (opParams (.downloadFiles "b1")).map Prod.fst) ∧
    ("user_key", "key") ∈ (doQuery client0 [("return", "zip")]) ∧
    ("return", "zip") ∈ (doQuery client0 [("return", "zip")]) := by
  obtain ⟨h1, h2⟩ := user_key_in_query client0 (.downloadFiles "b1")
  have h3 := h2 (Request.mk "GET" (botUrl client0 "bot" "b1")
    (doQuery client0 [("return", "zip")]) false) rfl
  exact ⟨h1, h3.1, h3.2 ("return", "zip") (by decide)⟩

/-- C2: `fileToUrl` maps a filename by its extension: `.aiml` to the bot
URL plus `/file/{filename}`; `.set`, `.map`, `.substitution` to the bot
URL plus `/{kind}/{filename without extension}`; `.properties`,
`.pdefaults` to the bot URL plus `/{kind}`; any other extension makes
the upload, delete and retrieve operations fail with the
unsupported-extension error, and no request is issued. -/
theorem fileToUrl_spec (c : Client) (name filename : String) :
    (filepath_Ext filename = ".aiml" →
      fileToUrl c name filename = .ok (botUrl c "bot" name ++ "/file/" ++ filename)) ∧
    (filepath_Ext filename = ".set" →
      fileToUrl c name filename =
        .ok (botUrl c "bot" name ++ "/" ++ "set" ++ "/" ++ filename.dropRight ".set".length)) ∧
    (filepath_Ext filename = ".map" →
      fileToUrl c name filename =
        .ok (botUrl c "bot" name ++ "/" ++ "map" ++ "/" ++ filename.dropRight ".map".length)) ∧
    (filepath_Ext filename = ".substitution" →
      fileToUrl c name filename =
        .ok (botUrl c "bot" name ++ "/" ++ "substitution" ++ "/" ++
          filename.dropRight ".substitution".length)) ∧
    (filepath_Ext filename = ".properties" →
      fileToUrl c name filename = .ok (botUrl c "bot" name ++ "/" ++ "properties")) ∧
    (filepath_Ext filename = ".pdefaults" →
      fileToUrl c name filename = .ok (botUrl c "bot" name ++ "/" ++ "pdefaults")) ∧
    (filepath_Ext filename ∉ ([".aiml", ".set", ".map", ".substitution", ".properties",
        ".pdefaults"] : List String) →
      fileToUrl c name filename = .error (.extError (filepath_Ext filename)) ∧
      opRequest c (.uploadFile name filename) = .error (.extError (filepath_Ext filename)) ∧
      opRequest c (.deleteFile name filename) = .error (.extError (filepath_Ext filename)) ∧
      opRequest c (.getFile name filename) = .error (.extError (filepath_Ext filename))) := by
  refine ⟨?_, ?_, ?_, ?_, ?_, ?_, ?_⟩
  · intro h; simp [fileToUrl, h]
  · intro h; simp [fileToUrl, h, show (".set" : String).drop 1 = "set" from rfl]
  · intro h; simp [fileToUrl, h, show (".map" : String).drop 1 = "map" from rfl]
  · intro h
    simp [fileToUrl, h, show (".substitution" : String).drop 1 = "substitution" from rfl]
  · intro h
    simp [fileToUrl, h, show (".properties" : String).drop 1 = "properties" from rfl]
  · intro h; simp [fileToUrl, h, show (".pdefaults" : String).drop 1 = "pdefaults" from rfl]
  · intro h
    simp only [List.mem_cons, List.not_mem_nil, or_false, not_or] at h
    obtain ⟨h1, h2, h3, h4, h5, h6⟩ := h
    have hf : fileToUrl c name filename = .error (.extError (filepath_Ext filename)) := by
      simp [fileToUrl, h1, h2, h3, h4, h5, h6]
    exact ⟨hf, by simp [opRequest, hf], by simp [opRequest, hf], by simp [opRequest, hf]⟩

/-- Witness for C2 at the documented example: `colors.set` resolves to
the set-kind URL `.../bot/app/bot1/set/colors`, and an unknown
extension is rejected with no request for all three file operations. -/
theorem fileToUrl_spec_witness :
    fileToUrl client0 "bot1" "colors.set"
      = .ok "https://aiaas.pandorabots.com/bot/app/bot1/set/colors" ∧
    opRequest client0 (.uploadFile "bot1" "x.unknown") = .error (.extError ".unknown") := by
  have h1 := (fileToUrl_spec client0 "bot1" "colors.set").2.1 (by decide)
  have h2 := ((fileToUrl_spec client0 "bot1" "x.unknown").2.2.2.2.2.2 (by decide)).2.1
  exact ⟨h1.trans (by rfl), h2.trans (by rfl)⟩

/-- C1: on the request-execution path, a response with status outside
`[200, 300)` yields exactly the unexpected-status error carrying the
code and reason phrase, with neither a raw-byte copy nor a structured
decode attempted; a status in `[200, 300)` never yields such an
error. -/
theorem status_classification {α : Type} (c : Client) (dest : Dest α) (resp : HTTPResponse) :
    (¬ (200 ≤ resp.statusCode ∧ resp.statusCode < 300) →
      go_do c dest (.ok resp) =
        { err := some (.unexpectedStatus resp.statusCode (http_StatusText resp.statusCode)),
          decoded := none, written := none,
          bodyState := some { drained := c.errorlog, closed := true } }) ∧
    ((200 ≤ resp.statusCode ∧ resp.statusCode < 300) →
      ∀ n s, (go_do c dest (.ok resp)).err ≠ some (.unexpectedStatus n s)) := by
  constructor
  · intro h
    have hcond : resp.statusCode < 200 ∨ 300 ≤ resp.statusCode := by omega
    simp only [go_do, handleError, if_pos hcond]
    cases hE : c.errorlog <;> simp
  · intro h n s
    have hcond : ¬ (resp.statusCode < 200 ∨ 300 ≤ resp.statusCode) := by omega
    simp only [go_do, handleError, if_neg hcond]
    cases dest with
    | noResult => simp
    | writer => simp
    | typed decode => cases hd : decode resp.body <;> simp [hd]

/-- Witness for C1: a 404 response produces the unexpected-status error
with code 404 and reason phrase, and no decoding output. -/
theorem status_classification_witness :
    go_do client0 (Dest.noResult : Dest Unit) (.ok { statusCode := 404, body := "oops" })
      = { err := some (.unexpectedStatus 404 "Not Found"), decoded := none, written := none,
          bodyState := some { drained := false, closed := true } } :=
  (status_classification client0 (Dest.noResult : Dest Unit)
    { statusCode := 404, body := "oops" }).1 (by decide)

/-- C5: on a successful (2xx) response, a raw byte sink receives the
body verbatim; a structured destination receives the decoded value when
decoding succeeds, and the operation returns a decode error when the
body does not match the expected structure. -/
theorem success_decode {α : Type} (c : Client) (decode : String → Except String α)
    (resp : HTTPResponse) (h2 : 200 ≤ resp.statusCode) (h3 : resp.statusCode < 300) :
    ((go_do c (Dest.writer : Dest α) (.ok resp)).written = some resp.body ∧
      (go_do c (Dest.writer : Dest α) (.ok resp)).err = none) ∧
    (∀ a, decode resp.body = .ok a →
      (go_do c (Dest.typed decode) (.ok resp)).decoded = some a ∧
      (go_do c (Dest.typed decode) (.ok resp)).err = none) ∧
    (∀ m, decode resp.body = .error m →
      (go_do c (Dest.typed decode) (.ok resp)).err = some (.decodeError m)) := by
  have hcond : ¬ (resp.statusCode < 200 ∨ 300 ≤ resp.statusCode) := by omega
  refine ⟨?_, ?_, ?_⟩
  · simp only [go_do, handleError, if_neg hcond]; simp
  · intro a ha; simp only [go_do, handleError, if_neg hcond]; simp [ha]
  · intro m hm; simp only [go_do, handleError, if_neg hcond]; simp [hm]

/-- Witness for C5: a 200 response with the documented reply body is
copied verbatim to a writer, decoded into a typed destination, and a
non-matching body yields the decode error. -/
theorem success_decode_witness :
    (go_do client0 (Dest.writer : Dest Nat) (.ok { statusCode := 200, body := "7" })).written
        = some "7" ∧
    (go_do client0 (Dest.typed decode0) (.ok { statusCode := 200, body := "7" })).decoded
        = some 7 ∧
    (go_do client0 (Dest.typed decode0)
        (.ok { statusCode := 200, body := "<html>" })).err
        = some (.decodeError "invalid character") := by
  refine ⟨?_, ?_, ?_⟩
  · exact (success_decode client0 decode0 { statusCode := 200, body := "7" }
      (by decide) (by decide)).1.1
  · exact ((success_decode client0 decode0 { statusCode := 200, body := "7" }
      (by decide) (by decide)).2.1 7 rfl).1
  · exact (success_decode client0 decode0 { statusCode := 200, body := "<html>" }
      (by decide) (by decide)).2.2 "invalid character" rfl

/-- C9 counterexample: the claim says the response body is always fully
drained; on a successful call with no result destination and no loggers
configured nothing ever reads the body, so it is closed but not
drained. -/
theorem body_not_drained_counterexample :
    (go_do client0 (Dest.noResult : Dest Unit)
        (.ok { statusCode := 200, body := "zipped-bot-export" })).bodyState
      = some { drained := false, closed := true } := rfl

/-- C9 as amended: for every transport outcome that yields a response,
the response body is closed after the call — whether the call succeeds,
fails on status classification, or fails during decoding — but it is
not necessarily drained first. -/
theorem body_always_closed {α : Type} (c : Client) (dest : Dest α) (resp : HTTPResponse) :
    ∃ bs : BodyState, (go_do c dest (.ok resp)).bodyState = some bs ∧ bs.closed = true := by
  by_cases hcond : resp.statusCode < 200 ∨ 300 ≤ resp.statusCode
  · simp only [go_do, handleError, if_pos hcond]
    exact ⟨_, rfl, rfl⟩
  · simp only [go_do, handleError, if_neg hcond]
    cases dest with
    | noResult => exact ⟨_, rfl, rfl⟩
    | writer => exact ⟨_, rfl, rfl⟩
    | typed decode => cases hd : decode resp.body <;> simp [hd]

/-- Witness for C9 as amended, at a concrete failing status. -/
theorem body_always_closed_witness :
    ∃ bs : BodyState,
      (go_do client0 (Dest.noResult : Dest Unit)
          (.ok { statusCode := 500, body := "x" })).bodyState = some bs ∧
      bs.closed = true :=
  body_always_closed client0 (Dest.noResult : Dest Unit) { statusCode := 500, body := "x" }

/-- C10: `Talk` and `TalkDebug` always return a non-nil `Reply`
pointer, whatever the transport outcome and whether or not an error is
also returned. -/
theorem talk_reply_nonnil (c : Client) (name input clientName : String) (sessionId : Int)
    (recent : Bool) (that topic : String) (extra reset trace reload : Bool)
    (decodeReply : String → Except String Reply) (tr : TransportResult) :
    (TalkDebug c name input clientName sessionId recent that topic extra reset trace reload
        decodeReply tr).2.1.isSome = true ∧
    (Talk c name input clientName sessionId recent decodeReply tr).2.1.isSome = true :=
  ⟨rfl, rfl⟩

/-- Witness for C10 at a failing transport: the reply pointer is
present even though an error is returned. -/
theorem talk_reply_nonnil_witness :
    (Talk client0 "b" "hi" "" 0 false decodeReply0 (.err "connection refused")).2.1.isSome
      = true :=
  (talk_reply_nonnil client0 "b" "hi" "" 0 false "" "" false false false false decodeReply0
    (.err "connection refused")).2

/-- C6: construction fails with the missing-credentials error exactly
when the options all apply and leave the application identifier or the
user key empty. -/
theorem missing_credentials_iff (options : List OptionF) :
    pbNew options = .error .noCred ↔
      ∃ c, applyOptions initialClient options = .ok c ∧ (c.appId = "" ∨ c.userKey = "") := by
  constructor
  · intro h
    cases hap : applyOptions initialClient options with
    | error e =>
      simp only [pbNew, hap] at h
      injection h with h
      exact absurd (hap.trans (by rw [h])) (applyOptions_ne_noCred options initialClient)
    | ok c =>
      simp only [pbNew, hap] at h
      by_cases hcred : c.appId = "" ∨ c.userKey = ""
      · exact ⟨c, rfl, hcred⟩
      · rw [if_neg hcred] at h
        exact absurd h (by simp)
  · rintro ⟨c, hap, hcred⟩
    simp only [pbNew, hap, if_pos hcred]

/-- Witness for C6: empty application identifier yields the
missing-credentials failure. -/
theorem missing_credentials_iff_witness :
    pbNew [.setCredentials "" "key"] = .error .noCred :=
  (missing_credentials_iff [.setCredentials "" "key"]).mpr
    ⟨Client.mk "" "key" "" false false false, rfl, Or.inl rfl⟩

/-- C7 counterexample: the claim says construction fails whenever the
supplied URL string parses with a scheme that is neither http nor
https; the empty string parses with scheme `""`, yet construction
succeeds, because `SetUrl` replaces `""` with the default endpoint
before validating. -/
theorem setUrl_empty_counterexample :
    url_Parse "" = .ok { scheme := "", rest := "" } ∧
    ("" : String) ≠ "http" ∧ ("" : String) ≠ "https" ∧
    pbNew [.setCredentials "app" "key", .setUrl ""]
      = .ok (Client.mk "app" "key" DefaultURL false false false) :=
  ⟨rfl, by decide, by decide, rfl⟩

/-- C7 as amended, stated over the URL parser as an explicit
collaborator (it holds for every parser, so in particular for the real
`net/url.Parse`): for every non-empty supplied base URL string,
construction fails with the parse error when the parser rejects the
string, fails with the invalid-scheme error when the parser returns a
scheme that is neither http nor https, and succeeds otherwise (given
non-empty credentials); the empty string is instead replaced by the
default endpoint before validation and succeeds. -/
theorem invalid_url_iff (parse : String → Except String GoURL)
    (s appId userKey : String) (hs : s ≠ "") (ha : appId ≠ "") (hk : userKey ≠ "") :
    (∀ e, parse s = .error e →
      pbNewWith parse [.setCredentials appId userKey, .setUrl s]
        = .error (.parseError e)) ∧
    (∀ u, parse s = .ok u → u.scheme ≠ "http" → u.scheme ≠ "https" →
      pbNewWith parse [.setCredentials appId userKey, .setUrl s]
        = .error (.invalidSchema s)) ∧
    (∀ u, parse s = .ok u → (u.scheme = "http" ∨ u.scheme = "https") →
      ∃ c, pbNewWith parse [.setCredentials appId userKey, .setUrl s] = .ok c) := by
  refine ⟨?_, ?_, ?_⟩
  · intro e he
    simp [pbNewWith, applyOptionsWith, applyOptionWith, hs, he]
  · intro u hu h1 h2
    simp [pbNewWith, applyOptionsWith, applyOptionWith, hs, hu, h1, h2]
  · intro u hu hsch
    have hno : ¬ (u.scheme ≠ "http" ∧ u.scheme ≠ "https") := by tauto
    simp only [pbNewWith, applyOptionsWith, applyOptionWith, if_neg hs, hu, if_neg hno]
    simp [ha, hk]

/-- Witness for C7 as amended, transported to the concrete `pbNew` via
`pbNewWith url_Parse = pbNew`: an ftp URL (a point where the modelled
parser fragment agrees with Go) is rejected with the invalid-scheme
error. -/
theorem invalid_url_iff_witness :
    pbNew [.setCredentials "app" "key", .setUrl "ftp://host"]
      = .error (.invalidSchema "ftp://host") := by
  rw [← pbNewWith_url_Parse]
  exact (invalid_url_iff url_Parse "ftp://host" "app" "key" (by decide) (by decide)
    (by decide)).2.1 { scheme := "ftp", rest := "//host" } rfl (by decide) (by decide)

/-- C8: a valid base URL supplied with a trailing slash yields an
effective base URL equal to the supplied string with exactly its last
character (one slash) removed; a URL ending in several slashes keeps
all but the last. -/
theorem trailing_slash_stripped (s appId userKey : String) (c : Client)
    (hslash : strings_HasSuffix s "/" = true)
    (h : pbNew [.setCredentials appId userKey, .setUrl s] = .ok c) :
    c.url = dropLastChar s := by
  have hs : s ≠ "" := by
    intro he
    rw [he] at hslash
    exact absurd hslash (by decide)
  cases hu : url_Parse s with
  | error e =>
    have hp : pbNew [.setCredentials appId userKey, .setUrl s] = .error (.parseError e) := by
      simp [pbNew, applyOptions, applyOption, hs, hu]
    rw [hp] at h
    exact absurd h (by simp)
  | ok u =>
    by_cases hsch : u.scheme ≠ "http" ∧ u.scheme ≠ "https"
    · have hp : pbNew [.setCredentials appId userKey, .setUrl s]
          = .error (.invalidSchema s) := by
        simp [pbNew, applyOptions, applyOption, hs, hu, hsch.1, hsch.2]
      rw [hp] at h
      exact absurd h (by simp)
    · by_cases hcred : appId = "" ∨ userKey = ""
      · have hp : pbNew [.setCredentials appId userKey, .setUrl s] = .error .noCred := by
          simp [pbNew, applyOptions, applyOption, hs, hu, hsch, hcred]
        rw [hp] at h
        exact absurd h (by simp)
      · have hp : pbNew [.setCredentials appId userKey, .setUrl s]
            = .ok (Client.mk appId userKey (dropLastChar s) false false false) := by
          simp [pbNew, applyOptions, applyOption, initialClient, hs, hu, hsch, hcred, hslash]
        rw [hp] at h
        injection h with h
        rw [← h]

/-- Witness for C8: a URL ending in two slashes keeps one of them. -/
theorem trailing_slash_stripped_witness :
    ({ appId := "app", userKey := "key", url := "https://example.com/", errorlog := false,
        tracelog := false, customHttp := false } : Client).url
      = dropLastChar "https://example.com//" :=
  trailing_slash_stripped "https://example.com//" "app" "key" _ (by decide) rfl

end PB
